import Mathlib

/-!
Shallow embedding of the JWT auxiliary-data extractor of
`internal/auxdata/jwt.go` (package `auxdata`): keyset registry, per-token
verification cache and the extraction/verification orchestration.

Modelling conventions:
* Times are integer seconds (`Int`); `time.Until(t)` becomes `t - now`.
* Key material (`jwk.Set`) is opaque and modelled as `Nat`.
* External collaborators (base64 decoding, `jwk.Parse`, `jwk.ReadFile`,
  the structural JWT decoder and the signature checker of `jwx`) are
  parameters of the embedding, bundled in `Externals` and `World`.
* The `gcache` verification cache is an association list from cache key to
  absolute expiry time; ARC eviction is not modelled (no claim concerns it).
* Go functions returning `(value, error)` pairs are embedded as pairs of
  options, so that "nil result alongside an error" is expressible.
* Observable effects of a single `extract` call (whether the cache was
  probed, whether the probe hit, whether a keyset was resolved, whether the
  token parser ran, the TTL passed to the cache insert) are recorded as
  extra fields of the call result; control flow is otherwise exactly that
  of the source.
-/

namespace Cerbos

/-- Opaque verification key material (`jwk.Set`). -/
abbrev JWKSet := Nat

/-- An opaque request context (`context.Context`). -/
abbrev Ctx := Nat

/-- Raw bytes (`[]byte`). -/
abbrev Bytes := List Nat

/-- Failure modes of `jwt.ParseString` under the chosen parse options:
structural failure, signature verification failure, or time-claim
validation failure (`exp` in the past, `nbf` in the future). -/
inductive ParseErr
  | malformed
  | badSignature
  | expired
  | notYetValid
deriving DecidableEq, Repr

/-- The error values produced in `jwt.go`:
`errNilLocalKeySet` (ERR-255), `errNoKeySetToVerify` (ERR-256),
`keyset not found` (ERR-258), `failed to retrieve keyset` (ERR-259, wraps
the inner error), `failed to parse JWT` (ERR-260, wraps the parse error),
and the three construction errors of `newLocalKeySet`
(ERR-261, ERR-262, ERR-263). -/
inductive JwtError
  | nilLocalKeySet
  | noKeySetToVerify
  | keySetNotFound (id : String)
  | keySetResolve (inner : JwtError)
  | parseFailure (e : ParseErr)
  | base64DecodeError (data : String)
  | keyParseError (msg : String)
  | fileReadError (file : String) (msg : String)
deriving DecidableEq, Repr

/-- `LocalSource`: inline key material (`Data`), or a file path (`File`);
`PEM` flag. -/
structure LocalSource where
  data : String
  file : String
  pem : Bool

/-- `RemoteSource`: URL plus optional refresh interval. -/
structure RemoteSource where
  url : String
  refreshInterval : Int

/-- `KeySetConf`: an identifier and at most one of remote/local sources
(`localSrc` embeds the Go field `Local`). -/
structure KeySetConf where
  id : String
  remote : Option RemoteSource
  localSrc : Option LocalSource

/-- `JWTConf`: the configuration consumed by `newJWTHelper`. -/
structure JWTConf where
  disableVerification : Bool
  keySets : List KeySetConf
  cacheSize : Int

/-- External library collaborators used by `newLocalKeySet`:
`base64.StdEncoding.DecodeString`, `jwk.Parse` (with the PEM flag) and
`jwk.ReadFile` (with the PEM flag, reading and parsing in one step). -/
structure Externals where
  base64Decode : String → Option Bytes
  jwkParse : Bytes → Bool → Except String JWKSet
  jwkReadFile : String → Bool → Except String JWKSet

/-- The `keySet` capability (Go interface `keySet`): resolve current key
material in a context. -/
abbrev KeySetV := Ctx → Except JwtError JWKSet

/-- Go type `localKeySet func(context.Context) (jwk.Set, error)`. -/
abbrev LocalKeySetFn := Ctx → Except JwtError JWKSet

/-- `newLocalKeySet`: decode inline data or read the file eagerly, capture
any failure in the returned closure instead of raising it. -/
def newLocalKeySet (ext : Externals) (src : LocalSource) : LocalKeySetFn :=
  if src.data ≠ "" then
    match ext.base64Decode src.data with
    | none => fun _ => .error (.base64DecodeError src.data)
    | some kbytes =>
      match ext.jwkParse kbytes src.pem with
      | .error m => fun _ => .error (.keyParseError m)
      | .ok ks => fun _ => .ok ks
  else
    match ext.jwkReadFile src.file src.pem with
    | .error m => fun _ => .error (.fileReadError src.file m)
    | .ok ks => fun _ => .ok ks

/-- Method `localKeySet.keySet`: a nil receiver yields `errNilLocalKeySet`,
otherwise the stored closure is invoked. -/
def localKeySetCall (lks : Option LocalKeySetFn) (ctx : Ctx) :
    Except JwtError JWKSet :=
  match lks with
  | none => .error .nilLocalKeySet
  | some f => f ctx

/-- The verification cache (`gcache.Cache`): key to absolute expiry time. -/
abbrev Cache := List (String × Int)

/-- Association-list insert with overwrite, the semantics of both a Go map
assignment and `gcache` `SetWithExpire` on an existing key. -/
def mapInsert {α : Type} : List (String × α) → String → α → List (String × α)
  | [], k, v => [(k, v)]
  | (k0, v0) :: rest, k, v =>
    if k0 = k then (k, v) :: rest else (k0, v0) :: mapInsert rest k v

/-- `gcache` `GetIFPresent`: true (hit) when the key is present and not yet
expired. -/
def cacheGetIfPresent (c : Cache) (k : String) (now : Int) : Bool :=
  match c.lookup k with
  | some e => decide (now ≤ e)
  | none => false

/-- `gcache` `SetWithExpire` with a relative TTL: store the absolute expiry. -/
def cacheSetWithExpire (c : Cache) (k : String) (now ttl : Int) : Cache :=
  mapInsert c k (now + ttl)

/-- `jwtHelper`: keyset registry (a map, embedded as an association list
built with overwriting inserts), optional verification cache, and the
global verification flag. -/
structure JwtHelper where
  keySets : List (String × KeySetV)
  cache : Option Cache
  verify : Bool

/-- `newJWTHelper`: nil config keeps `verify = true` with no keysets and no
cache; otherwise build the registry and the cache only when verification
is enabled, the cache additionally only for a positive configured size.
`mkRemote` stands for `newRemoteKeySet` over the shared `jwk.Cache`. -/
def newJWTHelper (ext : Externals) (mkRemote : RemoteSource → KeySetV)
    (conf : Option JWTConf) : JwtHelper :=
  match conf with
  | none => { keySets := [], cache := none, verify := true }
  | some c =>
    if !c.disableVerification then
      { keySets :=
          c.keySets.foldl (fun m ks =>
            match ks.remote with
            | some r => mapInsert m ks.id (mkRemote r)
            | none =>
              match ks.localSrc with
              | some l =>
                mapInsert m ks.id
                  (fun ctx => localKeySetCall (some (newLocalKeySet ext l)) ctx)
              | none => m) []
        cache := if c.cacheSize > 0 then some [] else none
        verify := true }
    else
      { keySets := [], cache := none, verify := false }

/-- A JWT claim key: Go `any`, either a string or some non-string value. -/
inductive ClaimKey
  | str (s : String)
  | nonStr (tag : Nat)
deriving DecidableEq, Repr

/-- A JWT claim value as seen by `util.ToStructPB`: either convertible to a
`structpb.Value` (modelled as `Nat`) or not. -/
inductive CValue
  | pb (v : Nat)
  | bad (tag : Nat)
deriving DecidableEq, Repr

/-- `util.ToStructPB`. -/
def toStructPB : CValue → Except String Nat
  | .pb v => .ok v
  | .bad _ => .error "unsupported type"

/-- The decoded content of a structurally well-formed token: claim pairs in
iteration order, optional `exp` and `nbf` time claims (seconds). -/
structure RawToken where
  claims : List (ClaimKey × CValue)
  exp : Option Int
  nbf : Option Int
deriving DecidableEq, Repr

/-- The ambient token world: structural decoding of compact serializations
and signature verification against key material (both inside `jwx`). -/
structure World where
  decode : String → Option RawToken
  verifies : RawToken → JWKSet → Bool

/-- The `jwt.ParseOption` list: `some ks` embeds `jwt.WithKeySet(ks)`,
`none` embeds `jwt.WithVerify(false)`; `validate` embeds
`jwt.WithValidate`. -/
structure ParseOpts where
  verifyWith : Option JWKSet
  validate : Bool
deriving DecidableEq, Repr

/-- Time-claim validation of `jwx`: `exp` fails unless `now < exp`, `nbf`
fails while `now < nbf`. -/
def validateTime (now : Int) (t : RawToken) : Except ParseErr RawToken :=
  match t.exp with
  | some e =>
    if now < e then
      match t.nbf with
      | some n => if now < n then .error .notYetValid else .ok t
      | none => .ok t
    else .error .expired
  | none =>
    match t.nbf with
    | some n => if now < n then .error .notYetValid else .ok t
    | none => .ok t

/-- `jwt.ParseString` under the given options: structural decode, then
signature verification when requested, then time validation when
requested. -/
def parseString (w : World) (now : Int) (tok : String) (opts : ParseOpts) :
    Except ParseErr RawToken :=
  match w.decode tok with
  | none => .error .malformed
  | some t =>
    match opts.verifyWith with
    | some ks =>
      if w.verifies t ks then
        if opts.validate then validateTime now t else .ok t
      else .error .badSignature
    | none =>
      if opts.validate then validateTime now t else .ok t

/-- `AuxData_JWT`: the request payload of `extract`. -/
structure AuxDataJWT where
  token : String
  keySetId : String

/-- Result of `jwtHelper.parseOptions`, with observability fields: whether
`GetIFPresent` was called, whether it hit, and whether `ks.keySet` was
called. -/
structure ParseOptsOut where
  res : Except JwtError ParseOpts
  probed : Bool
  hit : Bool
  resolved : Bool

/-- Keyset selection inside `parseOptions`: an empty request id selects the
sole registry entry (any other registry size is `errNoKeySetToVerify`); a
non-empty id is looked up and its absence is ERR-258. -/
def selectKeySet (keySets : List (String × KeySetV)) (keySetId : String) :
    Except JwtError KeySetV :=
  if keySetId = "" then
    match keySets with
    | [(_, ks)] => .ok ks
    | _ => .error .noKeySetToVerify
  else
    match keySets.lookup keySetId with
    | some ks => .ok ks
    | none => .error (.keySetNotFound keySetId)

/-- The tail of `parseOptions` after the cache shortcut: select the keyset,
resolve its material (ERR-259 wraps a resolution failure), and request
signature verification plus time validation. The second component records
whether `ks.keySet` was called. -/
def resolvePhase (j : JwtHelper) (ctx : Ctx) (keySetId : String) :
    Except JwtError ParseOpts × Bool :=
  match selectKeySet j.keySets keySetId with
  | .error e => (.error e, false)
  | .ok ks =>
    match ks ctx with
    | .error e => (.error (.keySetResolve e), true)
    | .ok jwks => (.ok { verifyWith := some jwks, validate := true }, true)

/-- `jwtHelper.parseOptions`: verification disabled skips the signature but
still validates time claims; with a cache key, a cache hit does the same;
otherwise the keyset is selected and resolved. -/
def parseOptions (j : JwtHelper) (now : Int) (ctx : Ctx) (keySetId : String)
    (cacheKey : String) : ParseOptsOut :=
  if !j.verify then
    { res := .ok { verifyWith := none, validate := true },
      probed := false, hit := false, resolved := false }
  else if cacheKey ≠ "" then
    if cacheGetIfPresent (j.cache.getD []) cacheKey now then
      { res := .ok { verifyWith := none, validate := true },
        probed := true, hit := true, resolved := false }
    else
      { res := (resolvePhase j ctx keySetId).1, probed := true, hit := false,
        resolved := (resolvePhase j ctx keySetId).2 }
  else
    { res := (resolvePhase j ctx keySetId).1, probed := false, hit := false,
      resolved := (resolvePhase j ctx keySetId).2 }

/-- `defaultCacheExpiry = 10 * time.Minute`, in seconds. -/
def defaultCacheExpiry : Int := 600

/-- The claims-extraction loop of `doExtract`: for each pair, the key is
taken by string type assertion (a non-string key leaves the zero value `""`
and only logs a warning — note the source has no `continue` there); a value
that `util.ToStructPB` rejects is skipped; otherwise the pair is written
into the result map. -/
def claimsLoop : List (ClaimKey × CValue) → List (String × Nat) →
    List (String × Nat)
  | [], acc => acc
  | (k, v) :: rest, acc =>
    let key := match k with
      | .str s => s
      | .nonStr _ => ""
    match toStructPB v with
    | .error _ => claimsLoop rest acc
    | .ok value => claimsLoop rest (mapInsert acc key value)

/-- The TTL computed by `doExtract` before the cache insert:
`time.Until(token.Expiration())` when positive, else the default.
A missing `exp` claim gives the zero time, whose `time.Until` is negative. -/
def cacheTTL (now : Int) (texp : Option Int) : Int :=
  match texp with
  | some e => if e - now > 0 then e - now else defaultCacheExpiry
  | none => defaultCacheExpiry

/-- `jwtHelper.doExtract`: parse/validate (ERR-260 wraps a failure and
returns a nil map), then, when a cache key was derived, insert it with the
computed TTL, then run the claims loop. Returns the Go result pair, the
cache state after the call and the TTL passed to the insert, if any. -/
def doExtract (w : World) (now : Int) (token : String) (opts : ParseOpts)
    (cacheKey : String) (cache : Option Cache) :
    (Option (List (String × Nat)) × Option JwtError) × Option Cache × Option Int :=
  match parseString w now token opts with
  | .error e => ((none, some (.parseFailure e)), cache, none)
  | .ok t =>
    if cacheKey ≠ "" then
      let expiry := cacheTTL now t.exp
      ((some (claimsLoop t.claims []), none),
        cache.map (fun c => cacheSetWithExpire c cacheKey now expiry),
        some expiry)
    else
      ((some (claimsLoop t.claims []), none), cache, none)

/-- Index of the last occurrence of `c` in a character list, -1 when
absent. -/
def lastIndexOfChar (c : Char) : List Char → Int
  | [] => -1
  | a :: rest =>
    let r := lastIndexOfChar c rest
    if r ≥ 0 then r + 1 else if a = c then 0 else -1

/-- Index of the last `.` in the token, as `strings.LastIndexByte`
(-1 when absent; `.` is a single-byte rune so byte and character positions
agree on it). -/
def lastDotIndex (tok : String) : Int := lastIndexOfChar '.' tok.toList

/-- Cache-key derivation in `extract`: only with a configured cache, and
only when the last `.` sits at a positive index; the key is
`auxJWT.Token[lastIdx:]`, the suffix starting AT the dot. -/
def deriveCacheKey (cacheConfigured : Bool) (token : String) : String :=
  if cacheConfigured then
    if lastDotIndex token > 0 then
      String.mk (token.toList.drop (lastDotIndex token).toNat)
    else ""
  else ""

/-- Everything observable about one `extract` call: the Go result pair,
the cache state after the call, and the recorded effects. -/
structure ExtractOut where
  claims : Option (List (String × Nat))
  err : Option JwtError
  cacheAfter : Option Cache
  probed : Bool
  hit : Bool
  resolved : Bool
  parsed : Bool
  insertedTTL : Option Int
  cacheKey : String

/-- The early return of `extract` for a nil request or empty token. -/
def emptyOut (j : JwtHelper) : ExtractOut :=
  { claims := none, err := none, cacheAfter := j.cache, probed := false,
    hit := false, resolved := false, parsed := false, insertedTTL := none,
    cacheKey := "" }

/-- Body of `extract` past the empty-token guard: derive the cache key,
compute parse options (an error aborts before any parsing), then
`doExtract`. -/
def extractBody (w : World) (j : JwtHelper) (now : Int) (ctx : Ctx)
    (a : AuxDataJWT) : ExtractOut :=
  let cacheKey := deriveCacheKey j.cache.isSome a.token
  let po := parseOptions j now ctx a.keySetId cacheKey
  match po.res with
  | .error e =>
    { claims := none, err := some e, cacheAfter := j.cache, probed := po.probed,
      hit := po.hit, resolved := po.resolved, parsed := false,
      insertedTTL := none, cacheKey := cacheKey }
  | .ok opts =>
    match doExtract w now a.token opts cacheKey j.cache with
    | ((cl, er), c2, ttl) =>
      { claims := cl, err := er, cacheAfter := c2, probed := po.probed,
        hit := po.hit, resolved := po.resolved, parsed := true,
        insertedTTL := ttl, cacheKey := cacheKey }

/-- `jwtHelper.extract`: a nil payload or empty token is a valid non-error
state returning a nil map. -/
def extract (w : World) (j : JwtHelper) (now : Int) (ctx : Ctx) :
    Option AuxDataJWT → ExtractOut
  | none => emptyOut j
  | some a => if a.token = "" then emptyOut j else extractBody w j now ctx a

/-- The meaning the SPEC gives to "signature segment": the substring
strictly following the last dot separator (empty when there is no dot).
Modelled from the spec for comparison with `deriveCacheKey`. -/
def specSigSegment (token : String) : String :=
  if lastDotIndex token ≥ 0 then
    String.mk (token.toList.drop ((lastDotIndex token).toNat + 1))
  else ""

/-- The cache-key clause of the spec, as stated: the key is the substring
following the last dot, and a key is derived exactly when that substring
is non-empty. -/
def claimC4Stated : Prop :=
  ∀ tok : String,
    (specSigSegment tok ≠ "" → deriveCacheKey true tok = specSigSegment tok) ∧
    (specSigSegment tok = "" → deriveCacheKey true tok = "")

/-- A keyset resolver that always returns the key material `n`. -/
def okKeySet (n : JWKSet) : KeySetV := fun _ => .ok n

/-- A world in which every token string decodes to a fixed claims-free,
expiry-free token and every signature verifies. -/
def allOkWorld : World :=
  { decode := fun _ => some { claims := [], exp := none, nbf := none },
    verifies := fun _ _ => true }

/-- A world in which no token string is structurally well-formed. -/
def rejectWorld : World :=
  { decode := fun _ => none, verifies := fun _ _ => true }

/-- A registry state with a single keyset and no cache. -/
def oneKeySetHelper : JwtHelper :=
  { keySets := [("ks1", okKeySet 7)], cache := none, verify := true }

/-- A helper state with verification disabled. -/
def noVerifyHelper : JwtHelper :=
  { keySets := [], cache := none, verify := false }

/-- A token carrying one well-formed claim that expires at time 100. -/
def expiringToken : RawToken :=
  { claims := [(.str "sub", .pb 1)], exp := some 100, nbf := none }

/-- A world decoding exactly the string "h.p.s" to `expiringToken`. -/
def expiringWorld : World :=
  { decode := fun s => if s = "h.p.s" then some expiringToken else none,
    verifies := fun _ _ => true }

/-- A token whose first claim has a non-string key with a convertible
value, followed by one well-formed claim. -/
def mixedKeyToken : RawToken :=
  { claims := [(.nonStr 0, .pb 7), (.str "sub", .pb 1)], exp := none, nbf := none }

/-- A world decoding exactly the string "h.p.sig" to `mixedKeyToken`. -/
def mixedKeyWorld : World :=
  { decode := fun s => if s = "h.p.sig" then some mixedKeyToken else none,
    verifies := fun _ _ => true }

/-- A helper state whose cache already records the signature ".sig" as
verified until time 1000, with an empty registry. -/
def primedCacheHelper : JwtHelper :=
  { keySets := [], cache := some [(".sig", 1000)], verify := true }

/-- External collaborators that fail base64 decoding of every input. -/
def failingExternals : Externals :=
  { base64Decode := fun _ => none,
    jwkParse := fun _ _ => .error "parse failed",
    jwkReadFile := fun _ _ => .error "read failed" }

/-- An inline local source whose data will fail base64 decoding under
`failingExternals`. -/
def inlineSrc : LocalSource := { data := "x", file := "", pem := false }

/-- A configuration with verification disabled and a positive cache size. -/
def disabledConf : JWTConf :=
  { disableVerification := true, keySets := [], cacheSize := 5 }

/-- A helper with one keyset and an empty (enabled) verification cache. -/
def cachedOneKeySetHelper : JwtHelper :=
  { keySets := [("ks1", okKeySet 7)], cache := some [], verify := true }

/-! ### Helper lemmas about the embedded operations -/

theorem extract_some_of_ne (w : World) (j : JwtHelper) (now : Int) (ctx : Ctx)
    (a : AuxDataJWT) (ha : a.token ≠ "") :
    extract w j now ctx (some a) = extractBody w j now ctx a := by
  simp [extract, ha]

theorem resolvePhase_of_select_err (j : JwtHelper) (ctx : Ctx) (id : String)
    (e : JwtError) (h : selectKeySet j.keySets id = .error e) :
    resolvePhase j ctx id = (.error e, false) := by
  unfold resolvePhase
  rw [h]

theorem parseOptions_of_verify_false (j : JwtHelper) (now : Int) (ctx : Ctx)
    (id key : String) (hv : j.verify = false) :
    parseOptions j now ctx id key =
      { res := .ok { verifyWith := none, validate := true },
        probed := false, hit := false, resolved := false } := by
  simp [parseOptions, hv]

theorem parseOptions_hit_res (j : JwtHelper) (now : Int) (ctx : Ctx)
    (id key : String) (hh : (parseOptions j now ctx id key).hit = true) :
    (parseOptions j now ctx id key).res = .ok { verifyWith := none, validate := true } ∧
      (parseOptions j now ctx id key).resolved = false := by
  unfold parseOptions at hh ⊢
  by_cases hv : j.verify
  · simp only [hv, Bool.not_true, Bool.false_eq_true, if_false] at hh ⊢
    by_cases hk : key = ""
    · simp [hk] at hh
    · simp only [ne_eq, hk, not_false_eq_true, if_true] at hh ⊢
      by_cases hp : cacheGetIfPresent (j.cache.getD []) key now
      · simp [hp]
      · simp [hp] at hh
  · simp [hv] at hh

theorem parseOptions_res_of_not_hit (j : JwtHelper) (now : Int) (ctx : Ctx)
    (id key : String) (hv : j.verify = true)
    (hh : (parseOptions j now ctx id key).hit = false) :
    (parseOptions j now ctx id key).res = (resolvePhase j ctx id).1 ∧
      (parseOptions j now ctx id key).resolved = (resolvePhase j ctx id).2 := by
  unfold parseOptions at hh ⊢
  simp only [hv, Bool.not_true, Bool.false_eq_true, if_false] at hh ⊢
  by_cases hk : key = ""
  · simp [hk]
  · simp only [ne_eq, hk, not_false_eq_true, if_true] at hh ⊢
    by_cases hp : cacheGetIfPresent (j.cache.getD []) key now
    · simp [hp] at hh
    · simp [hp]


theorem resolvePhase_validate (j : JwtHelper) (ctx : Ctx) (id : String)
    (opts : ParseOpts) (h : (resolvePhase j ctx id).1 = .ok opts) :
    opts.validate = true := by
  unfold resolvePhase at h
  cases hs : selectKeySet j.keySets id with
  | error e => simp [hs] at h
  | ok ks =>
    simp only [hs] at h
    cases hk : ks ctx with
    | error e => simp [hk] at h
    | ok jwks =>
      simp only [hk] at h
      cases h
      rfl

theorem parseOptions_validate (j : JwtHelper) (now : Int) (ctx : Ctx)
    (id key : String) (opts : ParseOpts)
    (h : (parseOptions j now ctx id key).res = .ok opts) :
    opts.validate = true := by
  unfold parseOptions at h
  by_cases hv : j.verify
  · simp only [hv, Bool.not_true, Bool.false_eq_true, if_false] at h
    by_cases hk : key = ""
    · simp only [hk, ne_eq, not_true_eq_false, if_false] at h
      exact resolvePhase_validate j ctx id opts h
    · simp only [ne_eq, hk, not_false_eq_true, if_true] at h
      by_cases hp : cacheGetIfPresent (j.cache.getD []) key now
      · simp only [hp, if_true] at h
        cases h
        rfl
      · simp only [hp, Bool.false_eq_true, if_false] at h
        exact resolvePhase_validate j ctx id opts h
  · simp only [Bool.not_eq_true] at hv
    simp only [hv, Bool.not_false, if_true] at h
    cases h
    rfl

theorem validateTime_ok_eq (now : Int) (t t2 : RawToken)
    (h : validateTime now t = .ok t2) : t2 = t := by
  unfold validateTime at h
  cases he : t.exp with
  | some e =>
    rw [he] at h
    by_cases hlt : now < e
    · simp only [hlt, if_true] at h
      cases hn : t.nbf with
      | some n =>
        rw [hn] at h
        by_cases hnb : now < n
        · simp [hnb] at h
        · simp only [hnb, if_false] at h
          cases h
          rfl
      | none => rw [hn] at h; cases h; rfl
    · simp [hlt] at h
  | none =>
    rw [he] at h
    cases hn : t.nbf with
    | some n =>
      rw [hn] at h
      by_cases hnb : now < n
      · simp [hnb] at h
      · simp only [hnb, if_false] at h
        cases h
        rfl
    | none => rw [hn] at h; cases h; rfl

theorem validateTime_ok_exp (now : Int) (t t2 : RawToken)
    (h : validateTime now t = .ok t2) (e : Int) (he : t.exp = some e) :
    now < e := by
  unfold validateTime at h
  rw [he] at h
  by_cases hlt : now < e
  · exact hlt
  · simp [hlt] at h

theorem validateTime_expired (now : Int) (t : RawToken) (e : Int)
    (he : t.exp = some e) (hle : e ≤ now) :
    validateTime now t = .error .expired := by
  unfold validateTime
  rw [he]
  simp [not_lt.mpr hle]

theorem parseString_ok (w : World) (now : Int) (tok : String)
    (opts : ParseOpts) (t : RawToken)
    (h : parseString w now tok opts = .ok t) :
    w.decode tok = some t ∧
      (opts.validate = true → validateTime now t = .ok t) := by
  unfold parseString at h
  cases hd : w.decode tok with
  | none => rw [hd] at h; exact absurd h (by simp)
  | some t0 =>
    rw [hd] at h
    have core : (if opts.validate then validateTime now t0 else .ok t0) = .ok t →
        t0 = t ∧ (opts.validate = true → validateTime now t = .ok t) := by
      intro hc
      by_cases hval : opts.validate
      · simp only [hval, if_true] at hc
        have := validateTime_ok_eq now t0 t hc
        subst this
        exact ⟨rfl, fun _ => hc⟩
      · simp only [hval, Bool.false_eq_true, if_false] at hc
        cases hc
        exact ⟨rfl, fun hv => absurd hv hval⟩
    cases hvw : opts.verifyWith with
    | some ks =>
      rw [hvw] at h
      by_cases hver : w.verifies t0 ks
      · simp only [hver, if_true] at h
        obtain ⟨heq, hvt⟩ := core h
        subst heq
        exact ⟨rfl, hvt⟩
      · simp [hver] at h
    | none =>
      rw [hvw] at h
      obtain ⟨heq, hvt⟩ := core h
      subst heq
      exact ⟨rfl, hvt⟩

theorem parseString_skip_validate_err (w : World) (now : Int) (tok : String)
    (t : RawToken) (hd : w.decode tok = some t) (ve : ParseErr)
    (hv : validateTime now t = .error ve) :
    parseString w now tok { verifyWith := none, validate := true } = .error ve := by
  unfold parseString
  rw [hd]
  simpa using hv

theorem extractBody_of_po_err (w : World) (j : JwtHelper) (now : Int)
    (ctx : Ctx) (a : AuxDataJWT) (e : JwtError)
    (h : (parseOptions j now ctx a.keySetId
        (deriveCacheKey j.cache.isSome a.token)).res = .error e) :
    extractBody w j now ctx a =
      { claims := none, err := some e, cacheAfter := j.cache,
        probed := (parseOptions j now ctx a.keySetId
          (deriveCacheKey j.cache.isSome a.token)).probed,
        hit := (parseOptions j now ctx a.keySetId
          (deriveCacheKey j.cache.isSome a.token)).hit,
        resolved := (parseOptions j now ctx a.keySetId
          (deriveCacheKey j.cache.isSome a.token)).resolved,
        parsed := false, insertedTTL := none,
        cacheKey := deriveCacheKey j.cache.isSome a.token } := by
  unfold extractBody
  simp only [h]

theorem extractBody_of_po_ok (w : World) (j : JwtHelper) (now : Int)
    (ctx : Ctx) (a : AuxDataJWT) (opts : ParseOpts)
    (h : (parseOptions j now ctx a.keySetId
        (deriveCacheKey j.cache.isSome a.token)).res = .ok opts) :
    extractBody w j now ctx a =
      match doExtract w now a.token opts
          (deriveCacheKey j.cache.isSome a.token) j.cache with
      | ((cl, er), c2, ttl) =>
        { claims := cl, err := er, cacheAfter := c2,
          probed := (parseOptions j now ctx a.keySetId
            (deriveCacheKey j.cache.isSome a.token)).probed,
          hit := (parseOptions j now ctx a.keySetId
            (deriveCacheKey j.cache.isSome a.token)).hit,
          resolved := (parseOptions j now ctx a.keySetId
            (deriveCacheKey j.cache.isSome a.token)).resolved,
          parsed := true, insertedTTL := ttl,
          cacheKey := deriveCacheKey j.cache.isSome a.token } := by
  unfold extractBody
  simp only [h]

theorem doExtract_of_parse_err (w : World) (now : Int) (token : String)
    (opts : ParseOpts) (cacheKey : String) (cache : Option Cache)
    (pe : ParseErr) (h : parseString w now token opts = .error pe) :
    doExtract w now token opts cacheKey cache =
      ((none, some (.parseFailure pe)), cache, none) := by
  unfold doExtract
  rw [h]

theorem doExtract_of_parse_ok_key (w : World) (now : Int) (token : String)
    (opts : ParseOpts) (cacheKey : String) (cache : Option Cache)
    (t : RawToken) (h : parseString w now token opts = .ok t)
    (hk : cacheKey ≠ "") :
    doExtract w now token opts cacheKey cache =
      ((some (claimsLoop t.claims []), none),
        cache.map (fun c => cacheSetWithExpire c cacheKey now (cacheTTL now t.exp)),
        some (cacheTTL now t.exp)) := by
  unfold doExtract
  rw [h]
  simp [hk]

theorem doExtract_of_parse_ok_nokey (w : World) (now : Int) (token : String)
    (opts : ParseOpts) (cache : Option Cache)
    (t : RawToken) (h : parseString w now token opts = .ok t) :
    doExtract w now token opts "" cache =
      ((some (claimsLoop t.claims []), none), cache, none) := by
  unfold doExtract
  rw [h]
  simp

theorem extractBody_flags (w : World) (j : JwtHelper) (now : Int) (ctx : Ctx)
    (a : AuxDataJWT) :
    (extractBody w j now ctx a).hit =
        (parseOptions j now ctx a.keySetId
          (deriveCacheKey j.cache.isSome a.token)).hit ∧
      (extractBody w j now ctx a).probed =
        (parseOptions j now ctx a.keySetId
          (deriveCacheKey j.cache.isSome a.token)).probed ∧
      (extractBody w j now ctx a).resolved =
        (parseOptions j now ctx a.keySetId
          (deriveCacheKey j.cache.isSome a.token)).resolved ∧
      (extractBody w j now ctx a).cacheKey =
        deriveCacheKey j.cache.isSome a.token := by
  cases h : (parseOptions j now ctx a.keySetId
      (deriveCacheKey j.cache.isSome a.token)).res with
  | error e =>
    rw [extractBody_of_po_err w j now ctx a e h]
    exact ⟨rfl, rfl, rfl, rfl⟩
  | ok opts =>
    rw [extractBody_of_po_ok w j now ctx a opts h]
    rcases hd : doExtract w now a.token opts
        (deriveCacheKey j.cache.isSome a.token) j.cache with ⟨⟨cl, er⟩, c2, ttl⟩
    simp [hd]

theorem selectKeySet_sole (keySets : List (String × KeySetV))
    (p : String × KeySetV) (h : keySets = [p]) :
    selectKeySet keySets "" = .ok p.2 := by
  subst h
  rcases p with ⟨k, ks⟩
  rfl

theorem selectKeySet_empty_ok_iff (keySets : List (String × KeySetV)) :
    (∃ ks, selectKeySet keySets "" = .ok ks) ↔ keySets.length = 1 := by
  unfold selectKeySet
  simp only [if_pos rfl]
  cases keySets with
  | nil => simp
  | cons p rest =>
    cases rest with
    | nil =>
      rcases p with ⟨k, ks⟩
      simp
    | cons q rest2 =>
      rcases p with ⟨k, ks⟩
      rcases q with ⟨k2, ks2⟩
      simp [List.length]

theorem selectKeySet_empty_err (keySets : List (String × KeySetV))
    (h : keySets.length ≠ 1) :
    selectKeySet keySets "" = .error .noKeySetToVerify := by
  unfold selectKeySet
  simp only [if_pos rfl]
  cases keySets with
  | nil => rfl
  | cons p rest =>
    cases rest with
    | nil => exact absurd rfl h
    | cons q rest2 =>
      rcases p with ⟨k, ks⟩
      rcases q with ⟨k2, ks2⟩
      rfl

theorem selectKeySet_id_found (keySets : List (String × KeySetV))
    (id : String) (ks : KeySetV) (hid : id ≠ "")
    (h : keySets.lookup id = some ks) :
    selectKeySet keySets id = .ok ks := by
  unfold selectKeySet
  simp [hid, h]

theorem selectKeySet_id_missing (keySets : List (String × KeySetV))
    (id : String) (hid : id ≠ "") (h : keySets.lookup id = none) :
    selectKeySet keySets id = .error (.keySetNotFound id) := by
  unfold selectKeySet
  simp [hid, h]

theorem selectKeySet_id_ok_iff (keySets : List (String × KeySetV))
    (id : String) (hid : id ≠ "") :
    (∃ ks, selectKeySet keySets id = .ok ks) ↔
      (keySets.lookup id).isSome = true := by
  unfold selectKeySet
  simp only [hid, if_false]
  cases h : keySets.lookup id <;> simp

theorem parseOptions_nokey (j : JwtHelper) (now : Int) (ctx : Ctx)
    (id : String) :
    (parseOptions j now ctx id "").probed = false ∧
      (parseOptions j now ctx id "").hit = false := by
  unfold parseOptions
  by_cases hv : j.verify <;> simp [hv]

theorem extract_uncached_frame (w : World) (j : JwtHelper) (now : Int)
    (ctx : Ctx) (a : AuxDataJWT)
    (hkey : deriveCacheKey j.cache.isSome a.token = "") :
    (extract w j now ctx (some a)).probed = false ∧
      (extract w j now ctx (some a)).hit = false ∧
      (extract w j now ctx (some a)).insertedTTL = none ∧
      (extract w j now ctx (some a)).cacheAfter = j.cache ∧
      (extract w j now ctx (some a)).cacheKey = "" := by
  by_cases ha : a.token = ""
  · simp [extract, ha, emptyOut]
  · rw [extract_some_of_ne w j now ctx a ha]
    have hflags := extractBody_flags w j now ctx a
    rw [hkey] at hflags
    have hnk := parseOptions_nokey j now ctx a.keySetId
    cases hres : (parseOptions j now ctx a.keySetId
        (deriveCacheKey j.cache.isSome a.token)).res with
    | error e =>
      rw [extractBody_of_po_err w j now ctx a e hres]
      rw [hkey]
      refine ⟨?_, ?_, rfl, rfl, rfl⟩
      · exact hnk.1
      · exact hnk.2
    | ok opts =>
      rw [hkey] at hres
      have hres2 : (parseOptions j now ctx a.keySetId
          (deriveCacheKey j.cache.isSome a.token)).res = .ok opts := by
        rw [hkey]; exact hres
      rw [extractBody_of_po_ok w j now ctx a opts hres2]
      cases hp : parseString w now a.token opts with
      | error pe =>
        rw [hkey, doExtract_of_parse_err w now a.token opts "" j.cache pe hp]
        simp [hnk.1, hnk.2]
      | ok t =>
        rw [hkey, doExtract_of_parse_ok_nokey w now a.token opts j.cache t hp]
        simp [hnk.1, hnk.2]

/-! ### The claims -/

/-- Claim C1: with verification enabled and no cache hit, keyset selection
for an empty request id succeeds — selecting the sole keyset — exactly when
the registry holds precisely one keyset, and otherwise fails with
NoKeySetToVerify; for a non-empty id it succeeds exactly when the id is
present and otherwise fails with KeySetNotFound; each such failure aborts
extraction before any token parsing occurs. -/
theorem claim_C1 (w : World) (j : JwtHelper) (now : Int) (ctx : Ctx)
    (a : AuxDataJWT) (hv : j.verify = true) (ha : a.token ≠ "")
    (hmiss : (extract w j now ctx (some a)).hit = false) :
    (a.keySetId = "" →
      ((∃ ks, selectKeySet j.keySets a.keySetId = .ok ks) ↔
        j.keySets.length = 1) ∧
      (∀ p, j.keySets = [p] → selectKeySet j.keySets a.keySetId = .ok p.2) ∧
      (j.keySets.length ≠ 1 →
        (extract w j now ctx (some a)).err = some .noKeySetToVerify ∧
        (extract w j now ctx (some a)).claims = none ∧
        (extract w j now ctx (some a)).parsed = false)) ∧
    (a.keySetId ≠ "" →
      ((∃ ks, selectKeySet j.keySets a.keySetId = .ok ks) ↔
        (j.keySets.lookup a.keySetId).isSome = true) ∧
      (j.keySets.lookup a.keySetId = none →
        (extract w j now ctx (some a)).err =
          some (.keySetNotFound a.keySetId) ∧
        (extract w j now ctx (some a)).claims = none ∧
        (extract w j now ctx (some a)).parsed = false)) := by
  rw [extract_some_of_ne w j now ctx a ha] at hmiss ⊢
  have hpo_hit : (parseOptions j now ctx a.keySetId
      (deriveCacheKey j.cache.isSome a.token)).hit = false := by
    rw [← (extractBody_flags w j now ctx a).1]
    exact hmiss
  have hres := (parseOptions_res_of_not_hit j now ctx a.keySetId
    (deriveCacheKey j.cache.isSome a.token) hv hpo_hit).1
  have habort : ∀ e, selectKeySet j.keySets a.keySetId = .error e →
      (extractBody w j now ctx a).err = some e ∧
        (extractBody w j now ctx a).claims = none ∧
        (extractBody w j now ctx a).parsed = false := by
    intro e hsel
    have hpe : (parseOptions j now ctx a.keySetId
        (deriveCacheKey j.cache.isSome a.token)).res = .error e := by
      rw [hres, resolvePhase_of_select_err j ctx a.keySetId e hsel]
    rw [extractBody_of_po_err w j now ctx a e hpe]
    exact ⟨rfl, rfl, rfl⟩
  refine ⟨fun hid => ⟨?_, ?_, ?_⟩, fun hid => ⟨?_, ?_⟩⟩
  · rw [hid]
    exact selectKeySet_empty_ok_iff j.keySets
  · intro p hp
    rw [hid]
    exact selectKeySet_sole j.keySets p hp
  · intro hlen
    exact habort .noKeySetToVerify
      (by rw [hid]; exact selectKeySet_empty_err j.keySets hlen)
  · exact selectKeySet_id_ok_iff j.keySets a.keySetId hid
  · intro hlook
    exact habort (.keySetNotFound a.keySetId)
      (selectKeySet_id_missing j.keySets a.keySetId hid hlook)

/-- Claim C10: a cache hit skips keyset resolution entirely, so extraction
can succeed even when the request names no configured keyset, and the
keyset-selection errors (NoKeySetToVerify, KeySetNotFound) can only arise
on calls whose cache probe did not hit. -/
theorem claim_C10 (w : World) (j : JwtHelper) (now : Int) (ctx : Ctx)
    (a : AuxDataJWT) (ha : a.token ≠ "") :
    ((extract w j now ctx (some a)).hit = true →
      (extract w j now ctx (some a)).resolved = false ∧
      (parseOptions j now ctx a.keySetId
          (deriveCacheKey j.cache.isSome a.token)).res =
        .ok { verifyWith := none, validate := true }) ∧
    (∀ e, (extract w j now ctx (some a)).err = some e →
      (e = .noKeySetToVerify ∨ ∃ id2, e = .keySetNotFound id2) →
      (extract w j now ctx (some a)).hit = false) ∧
    ((extract mixedKeyWorld primedCacheHelper 0 0
        (some { token := "h.p.sig", keySetId := "nope" })).err = none ∧
      (extract mixedKeyWorld primedCacheHelper 0 0
        (some { token := "h.p.sig", keySetId := "nope" })).hit = true ∧
      primedCacheHelper.keySets.lookup "nope" = none) := by
  refine ⟨?_, ?_, rfl, rfl, rfl⟩
  · intro hh
    rw [extract_some_of_ne w j now ctx a ha] at hh ⊢
    have hpo_hit : (parseOptions j now ctx a.keySetId
        (deriveCacheKey j.cache.isSome a.token)).hit = true := by
      rw [← (extractBody_flags w j now ctx a).1]
      exact hh
    obtain ⟨hres, hresolved⟩ := parseOptions_hit_res j now ctx a.keySetId
      (deriveCacheKey j.cache.isSome a.token) hpo_hit
    constructor
    · rw [(extractBody_flags w j now ctx a).2.2.1]
      exact hresolved
    · exact hres
  · intro e herr hforms
    by_cases hh : (extract w j now ctx (some a)).hit = true
    · exfalso
      rw [extract_some_of_ne w j now ctx a ha] at hh herr
      have hpo_hit : (parseOptions j now ctx a.keySetId
          (deriveCacheKey j.cache.isSome a.token)).hit = true := by
        rw [← (extractBody_flags w j now ctx a).1]
        exact hh
      have hres := (parseOptions_hit_res j now ctx a.keySetId
        (deriveCacheKey j.cache.isSome a.token) hpo_hit).1
      rw [extractBody_of_po_ok w j now ctx a _ hres] at herr
      cases hp : parseString w now a.token
          { verifyWith := none, validate := true } with
      | error pe =>
        rw [doExtract_of_parse_err w now a.token _ _ j.cache pe hp] at herr
        simp only [Option.some.injEq] at herr
        cases hforms with
        | inl h1 => rw [← herr] at h1; cases h1
        | inr h2 =>
          obtain ⟨id2, h2⟩ := h2
          rw [← herr] at h2
          cases h2
      | ok t =>
        by_cases hk : deriveCacheKey j.cache.isSome a.token = ""
        · rw [hk] at herr
          rw [doExtract_of_parse_ok_nokey w now a.token _ j.cache t hp] at herr
          simp at herr
        · rw [doExtract_of_parse_ok_key w now a.token _ _ j.cache t hp hk] at herr
          simp at herr
    · simpa using hh

/-- Claim C7: for every call where the supplied token string is empty (or the
payload is nil), `extract` returns a nil claims mapping and no error,
without touching the cache, the registry, or the parser. -/
theorem claim_C7 (w : World) (j : JwtHelper) (now : Int) (ctx : Ctx)
    (id : String) :
    ((extract w j now ctx (some { token := "", keySetId := id })).claims = none ∧
      (extract w j now ctx (some { token := "", keySetId := id })).err = none ∧
      (extract w j now ctx (some { token := "", keySetId := id })).cacheAfter = j.cache ∧
      (extract w j now ctx (some { token := "", keySetId := id })).probed = false ∧
      (extract w j now ctx (some { token := "", keySetId := id })).resolved = false ∧
      (extract w j now ctx (some { token := "", keySetId := id })).parsed = false ∧
      (extract w j now ctx (some { token := "", keySetId := id })).insertedTTL = none) ∧
    extract w j now ctx none = emptyOut j := by
  constructor
  · exact ⟨rfl, rfl, rfl, rfl, rfl, rfl, rfl⟩
  · rfl

/-- Claim C2: whenever signature verification is skipped — global verification
disabled, or the verification-cache probe hit — the token is still parsed
with time-claim validation enabled, so any time-validation failure
(expiry in particular) still fails the call; a cache hit never bypasses
freshness checks. -/
theorem claim_C2 (w : World) (j : JwtHelper) (now : Int) (ctx : Ctx)
    (a : AuxDataJWT) (ha : a.token ≠ "")
    (hskip : j.verify = false ∨ (extract w j now ctx (some a)).hit = true) :
    (parseOptions j now ctx a.keySetId
        (deriveCacheKey j.cache.isSome a.token)).res =
      .ok { verifyWith := none, validate := true } ∧
    (extract w j now ctx (some a)).parsed = true ∧
    (∀ t ve, w.decode a.token = some t → validateTime now t = .error ve →
      (extract w j now ctx (some a)).err = some (.parseFailure ve) ∧
        (extract w j now ctx (some a)).claims = none) ∧
    (∀ t : RawToken, ∀ e : Int, t.exp = some e → e ≤ now →
      validateTime now t = .error .expired) := by
  rw [extract_some_of_ne w j now ctx a ha]
  have hpo : (parseOptions j now ctx a.keySetId
      (deriveCacheKey j.cache.isSome a.token)).res =
        .ok { verifyWith := none, validate := true } := by
    cases hskip with
    | inl hv => rw [parseOptions_of_verify_false j now ctx _ _ hv]
    | inr hh =>
      rw [extract_some_of_ne w j now ctx a ha] at hh
      rw [(extractBody_flags w j now ctx a).1] at hh
      exact (parseOptions_hit_res j now ctx _ _ hh).1
  refine ⟨hpo, ?_, ?_, ?_⟩
  · rw [extractBody_of_po_ok w j now ctx a _ hpo]
  · intro t ve hdec hvt
    have hps := parseString_skip_validate_err w now a.token t hdec ve hvt
    rw [extractBody_of_po_ok w j now ctx a _ hpo]
    rw [doExtract_of_parse_err w now a.token _ _ j.cache ve hps]
    exact ⟨rfl, rfl⟩
  · intro t e he hle
    exact validateTime_expired now t e he hle

/-- Claim C6: whenever parsing or validation of the token fails, `extract`
returns an error with a nil result — never a partial claims mapping
alongside an error — and performs no verification-cache insertion, leaving
the cache unchanged. -/
theorem claim_C6 (w : World) (j : JwtHelper) (now : Int) (ctx : Ctx) :
    (∀ aux, (extract w j now ctx aux).err.isSome = true →
      (extract w j now ctx aux).claims = none) ∧
    (∀ a : AuxDataJWT, ∀ opts : ParseOpts, ∀ pe : ParseErr, a.token ≠ "" →
      (parseOptions j now ctx a.keySetId
        (deriveCacheKey j.cache.isSome a.token)).res = .ok opts →
      parseString w now a.token opts = .error pe →
      (extract w j now ctx (some a)).err = some (.parseFailure pe) ∧
        (extract w j now ctx (some a)).claims = none ∧
        (extract w j now ctx (some a)).cacheAfter = j.cache ∧
        (extract w j now ctx (some a)).insertedTTL = none) := by
  constructor
  · intro aux herr
    cases aux with
    | none => simp [extract, emptyOut] at herr
    | some a =>
      by_cases ha : a.token = ""
      · simp [extract, ha, emptyOut] at herr
      · rw [extract_some_of_ne w j now ctx a ha] at herr ⊢
        cases hres : (parseOptions j now ctx a.keySetId
            (deriveCacheKey j.cache.isSome a.token)).res with
        | error e => rw [extractBody_of_po_err w j now ctx a e hres]
        | ok opts =>
          rw [extractBody_of_po_ok w j now ctx a opts hres] at herr ⊢
          cases hp : parseString w now a.token opts with
          | error pe =>
            rw [doExtract_of_parse_err w now a.token opts _ j.cache pe hp]
          | ok t =>
            by_cases hk : deriveCacheKey j.cache.isSome a.token = ""
            · rw [hk] at herr ⊢
              rw [doExtract_of_parse_ok_nokey w now a.token opts j.cache t hp] at herr
              simp at herr
            · rw [doExtract_of_parse_ok_key w now a.token opts _ j.cache t hp hk] at herr
              simp at herr
  · intro a opts pe ha hpo hps
    rw [extract_some_of_ne w j now ctx a ha]
    rw [extractBody_of_po_ok w j now ctx a opts hpo]
    rw [doExtract_of_parse_err w now a.token opts _ j.cache pe hps]
    exact ⟨rfl, rfl, rfl, rfl⟩

/-- Claim C3 (code bug): the source's claims loop logs "Ignoring JWT
key-value pair because the key is not a string" but lacks a `continue`, so
the pair is NOT dropped: its value is stored under the zero-value key `""`.
On a token with one non-string-keyed claim (convertible value 7) and one
well-formed claim `sub = 1`, the embedded code returns two entries instead
of the claimed one. -/
theorem claim_C3 :
    (extract mixedKeyWorld noVerifyHelper 0 0
        (some { token := "h.p.sig", keySetId := "" })).claims =
      some [("", 7), ("sub", 1)] ∧
    (extract mixedKeyWorld noVerifyHelper 0 0
        (some { token := "h.p.sig", keySetId := "" })).err = none ∧
    claimsLoop mixedKeyToken.claims [] = [("", 7), ("sub", 1)] := by
  exact ⟨rfl, rfl, rfl⟩

/-- Claim C5: every successful extraction that derived a cache key inserts
the cache entry with TTL = max(token expiry − now, 0) — the fixed default
of 10 minutes when the token carries no expiry — and when the token has an
expiry the TTL equals (and hence never exceeds) the remaining validity
window. -/
theorem claim_C5 (w : World) (j : JwtHelper) (now : Int) (ctx : Ctx)
    (a : AuxDataJWT) (t : RawToken) (ha : a.token ≠ "")
    (hdec : w.decode a.token = some t)
    (hok : (extract w j now ctx (some a)).err = none)
    (hkey : (extract w j now ctx (some a)).cacheKey ≠ "") :
    (extract w j now ctx (some a)).insertedTTL =
      some (match t.exp with
        | some e => max (e - now) 0
        | none => defaultCacheExpiry) ∧
    (∀ e, t.exp = some e →
      (extract w j now ctx (some a)).insertedTTL = some (e - now) ∧
        0 < e - now) := by
  rw [extract_some_of_ne w j now ctx a ha] at hok hkey ⊢
  have hkeyD : deriveCacheKey j.cache.isSome a.token ≠ "" := by
    rw [← (extractBody_flags w j now ctx a).2.2.2]
    exact hkey
  cases hres : (parseOptions j now ctx a.keySetId
      (deriveCacheKey j.cache.isSome a.token)).res with
  | error e =>
    rw [extractBody_of_po_err w j now ctx a e hres] at hok
    simp at hok
  | ok opts =>
    rw [extractBody_of_po_ok w j now ctx a opts hres] at hok ⊢
    cases hp : parseString w now a.token opts with
    | error pe =>
      rw [doExtract_of_parse_err w now a.token opts _ j.cache pe hp] at hok
      simp at hok
    | ok t2 =>
      obtain ⟨hdec2, hval⟩ := parseString_ok w now a.token opts t2 hp
      rw [hdec] at hdec2
      have ht : t2 = t := by
        simpa using hdec2.symm
      subst ht
      have hvt := hval (parseOptions_validate j now ctx a.keySetId
        (deriveCacheKey j.cache.isSome a.token) opts hres)
      rw [doExtract_of_parse_ok_key w now a.token opts _ j.cache t2 hp hkeyD]
      cases he : t2.exp with
      | some e =>
        have hlt : now < e := validateTime_ok_exp now t2 t2 hvt e he
        have httl : cacheTTL now (some e) = e - now := by
          unfold cacheTTL
          simp [show e - now > 0 by omega]
        constructor
        · show some (cacheTTL now (some e)) = some ((e - now) ⊔ 0)
          rw [httl, max_eq_left (by omega : (0:ℤ) ≤ e - now)]
        · intro e2 he2
          injection he2 with hee
          subst hee
          refine ⟨?_, by omega⟩
          show some (cacheTTL now (some e)) = some (e - now)
          rw [httl]
      | none =>
        constructor
        · show some (cacheTTL now none) = some defaultCacheExpiry
          rfl
        · intro e2 he2
          cases he2

/-- Claim C9: with global verification disabled, or a configured cache
capacity of at most zero, no verification cache is constructed, and every
extract call on the resulting helper derives no cache key, performs no
probe, and inserts nothing. -/
theorem claim_C9 (ext : Externals) (mkRemote : RemoteSource → KeySetV)
    (conf : JWTConf)
    (h : conf.disableVerification = true ∨ conf.cacheSize ≤ 0) :
    (newJWTHelper ext mkRemote (some conf)).cache = none ∧
    (∀ w now ctx aux,
      (extract w (newJWTHelper ext mkRemote (some conf)) now ctx aux).probed = false ∧
      (extract w (newJWTHelper ext mkRemote (some conf)) now ctx aux).hit = false ∧
      (extract w (newJWTHelper ext mkRemote (some conf)) now ctx aux).insertedTTL = none ∧
      (extract w (newJWTHelper ext mkRemote (some conf)) now ctx aux).cacheAfter = none ∧
      (extract w (newJWTHelper ext mkRemote (some conf)) now ctx aux).cacheKey = "") := by
  have hc : (newJWTHelper ext mkRemote (some conf)).cache = none := by
    unfold newJWTHelper
    cases h with
    | inl hd => simp [hd]
    | inr hs =>
      by_cases hd : conf.disableVerification
      · simp [hd]
      · simp [hd, show ¬ conf.cacheSize > 0 from not_lt.mpr hs]
  refine ⟨hc, ?_⟩
  intro w now ctx aux
  cases aux with
  | none =>
    refine ⟨rfl, rfl, rfl, ?_, rfl⟩
    exact hc
  | some a =>
    by_cases ha : a.token = ""
    · rcases a with ⟨tok, id⟩
      simp only at ha
      subst ha
      refine ⟨rfl, rfl, rfl, ?_, rfl⟩
      exact hc
    · have hkey : deriveCacheKey
          (newJWTHelper ext mkRemote (some conf)).cache.isSome a.token = "" := by
        rw [hc]
        rfl
      obtain ⟨h1, h2, h3, h4, h5⟩ :=
        extract_uncached_frame w (newJWTHelper ext mkRemote (some conf)) now ctx a hkey
      exact ⟨h1, h2, h3, h4.trans hc, h5⟩

theorem lastIndexOfChar_cons (c a : Char) (rest : List Char) :
    lastIndexOfChar c (a :: rest) =
      if lastIndexOfChar c rest ≥ 0 then lastIndexOfChar c rest + 1
      else if a = c then 0 else -1 := rfl

theorem lastIndexOfChar_drop (c : Char) (cs : List Char)
    (h : 0 ≤ lastIndexOfChar c cs) :
    cs.drop (lastIndexOfChar c cs).toNat =
      c :: cs.drop ((lastIndexOfChar c cs).toNat + 1) := by
  induction cs with
  | nil => simp [lastIndexOfChar] at h
  | cons a rest ih =>
    by_cases hr : lastIndexOfChar c rest ≥ 0
    · have hval : lastIndexOfChar c (a :: rest) = lastIndexOfChar c rest + 1 := by
        rw [lastIndexOfChar_cons]
        simp [hr]
      rw [hval]
      have htn : (lastIndexOfChar c rest + 1).toNat =
          (lastIndexOfChar c rest).toNat + 1 := by omega
      rw [htn]
      simp only [List.drop_succ_cons]
      exact ih hr
    · by_cases hac : a = c
      · have hval : lastIndexOfChar c (a :: rest) = 0 := by
          rw [lastIndexOfChar_cons]
          simp [hr, hac]
        rw [hval]
        subst hac
        rfl
      · have hval : lastIndexOfChar c (a :: rest) = -1 := by
          rw [lastIndexOfChar_cons]
          simp [hr, hac]
        rw [hval] at h
        omega

theorem deriveCacheKey_eq_dot_append (tok : String)
    (h : 0 < lastDotIndex tok) :
    deriveCacheKey true tok = "." ++ specSigSegment tok := by
  unfold deriveCacheKey specSigSegment
  simp only [if_pos h, if_pos (le_of_lt h), if_pos rfl]
  unfold lastDotIndex at h ⊢
  rw [lastIndexOfChar_drop '.' tok.toList (le_of_lt h)]
  rfl

/-- Claim C4, counterexample: the spec's statement of the cache key — the
substring strictly following the last dot, derived only when non-empty —
does not match the code, which keeps the dot: on "h.p.sig" the derived key
is ".sig", not "sig". -/
theorem claim_C4_counterexample : ¬ claimC4Stated := by
  intro h
  have h1 := (h "h.p.sig").1 (by decide)
  exact absurd h1 (by decide)

/-- Claim C4 (amended): with the cache enabled, the cache key is the suffix
of the token starting AT the last dot (the dot followed by the signature
segment), derived exactly when the last dot sits at a positive index —
even if the segment after it is empty; with no such dot or the cache
disabled the key is empty and the call proceeds entirely uncached (no
probe, no insert, cache unchanged). -/
theorem claim_C4 :
    (∀ tok, deriveCacheKey false tok = "") ∧
    (∀ tok, lastDotIndex tok ≤ 0 → deriveCacheKey true tok = "") ∧
    (∀ tok, 0 < lastDotIndex tok →
      deriveCacheKey true tok = "." ++ specSigSegment tok) ∧
    (∀ w j now ctx a, deriveCacheKey j.cache.isSome a.token = "" →
      (extract w j now ctx (some a)).probed = false ∧
      (extract w j now ctx (some a)).insertedTTL = none ∧
      (extract w j now ctx (some a)).cacheAfter = j.cache) := by
  refine ⟨fun tok => rfl, fun tok h => ?_, fun tok h => ?_, ?_⟩
  · unfold deriveCacheKey
    simp [not_lt.mpr h]
  · exact deriveCacheKey_eq_dot_append tok h
  · intro w j now ctx a hk
    obtain ⟨h1, _, h3, h4, _⟩ := extract_uncached_frame w j now ctx a hk
    exact ⟨h1, h3, h4⟩

theorem newLocalKeySet_of_b64_none (ext : Externals) (src : LocalSource)
    (hne : src.data ≠ "") (hb : ext.base64Decode src.data = none) :
    newLocalKeySet ext src = fun _ => .error (.base64DecodeError src.data) := by
  unfold newLocalKeySet
  simp [hne, hb]

theorem newLocalKeySet_of_parse_err (ext : Externals) (src : LocalSource)
    (bs : Bytes) (m : String) (hne : src.data ≠ "")
    (hb : ext.base64Decode src.data = some bs)
    (hp : ext.jwkParse bs src.pem = .error m) :
    newLocalKeySet ext src = fun _ => .error (.keyParseError m) := by
  unfold newLocalKeySet
  simp [hne, hb, hp]

theorem newLocalKeySet_of_parse_ok (ext : Externals) (src : LocalSource)
    (bs : Bytes) (ks : JWKSet) (hne : src.data ≠ "")
    (hb : ext.base64Decode src.data = some bs)
    (hp : ext.jwkParse bs src.pem = .ok ks) :
    newLocalKeySet ext src = fun _ => .ok ks := by
  unfold newLocalKeySet
  simp [hne, hb, hp]

theorem newLocalKeySet_of_read_err (ext : Externals) (src : LocalSource)
    (m : String) (hd : src.data = "")
    (hr : ext.jwkReadFile src.file src.pem = .error m) :
    newLocalKeySet ext src = fun _ => .error (.fileReadError src.file m) := by
  unfold newLocalKeySet
  simp [hd, hr]

theorem newLocalKeySet_of_read_ok (ext : Externals) (src : LocalSource)
    (ks : JWKSet) (hd : src.data = "")
    (hr : ext.jwkReadFile src.file src.pem = .ok ks) :
    newLocalKeySet ext src = fun _ => .ok ks := by
  unfold newLocalKeySet
  simp [hd, hr]

theorem newLocalKeySet_const (ext : Externals) (src : LocalSource) :
    ∀ c1 c2 : Ctx, newLocalKeySet ext src c1 = newLocalKeySet ext src c2 := by
  by_cases hd : src.data = ""
  · cases hr : ext.jwkReadFile src.file src.pem with
    | error m => rw [newLocalKeySet_of_read_err ext src m hd hr]; exact fun c1 c2 => rfl
    | ok ks => rw [newLocalKeySet_of_read_ok ext src ks hd hr]; exact fun c1 c2 => rfl
  · cases hb : ext.base64Decode src.data with
    | none => rw [newLocalKeySet_of_b64_none ext src hd hb]; exact fun c1 c2 => rfl
    | some bs =>
      cases hp : ext.jwkParse bs src.pem with
      | error m =>
        rw [newLocalKeySet_of_parse_err ext src bs m hd hb hp]
        exact fun c1 c2 => rfl
      | ok ks =>
        rw [newLocalKeySet_of_parse_ok ext src bs ks hd hb hp]
        exact fun c1 c2 => rfl

/-- Claim C8: a local keyset captures any construction failure (bad base64,
unparseable key material, unreadable file) and every subsequent resolve
call returns that same stored error; a successfully constructed local
keyset returns the same key material, parsed at construction, on every
call — resolution on a local keyset is deterministic across calls. -/
theorem claim_C8 (ext : Externals) (src : LocalSource) :
    (∀ c1 c2 : Ctx,
      localKeySetCall (some (newLocalKeySet ext src)) c1 =
        localKeySetCall (some (newLocalKeySet ext src)) c2) ∧
    (src.data ≠ "" → ext.base64Decode src.data = none →
      ∀ c, localKeySetCall (some (newLocalKeySet ext src)) c =
        .error (.base64DecodeError src.data)) ∧
    (∀ bs m, src.data ≠ "" → ext.base64Decode src.data = some bs →
      ext.jwkParse bs src.pem = .error m →
      ∀ c, localKeySetCall (some (newLocalKeySet ext src)) c =
        .error (.keyParseError m)) ∧
    (∀ bs ks, src.data ≠ "" → ext.base64Decode src.data = some bs →
      ext.jwkParse bs src.pem = .ok ks →
      ∀ c, localKeySetCall (some (newLocalKeySet ext src)) c = .ok ks) ∧
    (∀ m, src.data = "" → ext.jwkReadFile src.file src.pem = .error m →
      ∀ c, localKeySetCall (some (newLocalKeySet ext src)) c =
        .error (.fileReadError src.file m)) ∧
    (∀ ks, src.data = "" → ext.jwkReadFile src.file src.pem = .ok ks →
      ∀ c, localKeySetCall (some (newLocalKeySet ext src)) c = .ok ks) := by
  have hcall : ∀ c, localKeySetCall (some (newLocalKeySet ext src)) c =
      newLocalKeySet ext src c := fun c => rfl
  refine ⟨fun c1 c2 => newLocalKeySet_const ext src c1 c2, ?_, ?_, ?_, ?_, ?_⟩
  · intro hne hb c
    rw [hcall, newLocalKeySet_of_b64_none ext src hne hb]
  · intro bs m hne hb hp c
    rw [hcall, newLocalKeySet_of_parse_err ext src bs m hne hb hp]
  · intro bs ks hne hb hp c
    rw [hcall, newLocalKeySet_of_parse_ok ext src bs ks hne hb hp]
  · intro m hd hr c
    rw [hcall, newLocalKeySet_of_read_err ext src m hd hr]
  · intro ks hd hr c
    rw [hcall, newLocalKeySet_of_read_ok ext src ks hd hr]

/-! ### Witnesses: the claim theorems applied at concrete inputs -/

/-- Witness for C1: on a registry with the single keyset "ks1", a call with
no request id selects it. -/
theorem claim_C1_witness :
    selectKeySet oneKeySetHelper.keySets "" = .ok (okKeySet 7) :=
  ((claim_C1 allOkWorld oneKeySetHelper 0 0
      { token := "tok", keySetId := "" } rfl (by decide) rfl).1 rfl).2.1
    ("ks1", okKeySet 7) rfl

/-- Witness for C2: with verification disabled, a token expired at time 100
still fails at time 200. -/
theorem claim_C2_witness :
    (extract expiringWorld noVerifyHelper 200 0
        (some { token := "h.p.s", keySetId := "" })).err =
      some (.parseFailure .expired) ∧
    (extract expiringWorld noVerifyHelper 200 0
        (some { token := "h.p.s", keySetId := "" })).claims = none :=
  (claim_C2 expiringWorld noVerifyHelper 200 0
      { token := "h.p.s", keySetId := "" } (by decide)
      (Or.inl rfl)).2.2.1 expiringToken .expired rfl rfl

/-- Witness for C4 (amended): on "h.p.sig" the derived key is the dot plus
the signature segment; a dot-free token proceeds unprobed. -/
theorem claim_C4_witness :
    deriveCacheKey true "h.p.sig" = "." ++ specSigSegment "h.p.sig" ∧
    (extract rejectWorld noVerifyHelper 0 0
        (some { token := "nodot", keySetId := "" })).probed = false :=
  ⟨claim_C4.2.2.1 "h.p.sig" (by decide),
    (claim_C4.2.2.2 rejectWorld noVerifyHelper 0 0
      { token := "nodot", keySetId := "" } rfl).1⟩

/-- Witness for C5: a successful verified extraction of a token expiring at
100, at time 0, inserts the cache entry with TTL 100. -/
theorem claim_C5_witness :
    (extract expiringWorld cachedOneKeySetHelper 0 0
        (some { token := "h.p.s", keySetId := "" })).insertedTTL =
      some (100 - 0) ∧ (0:ℤ) < 100 - 0 :=
  (claim_C5 expiringWorld cachedOneKeySetHelper 0 0
      { token := "h.p.s", keySetId := "" } expiringToken (by decide) rfl rfl
      (by decide)).2 100 rfl

/-- Witness for C6: a structurally malformed token aborts with a wrapped
parse error, a nil mapping, and an unchanged cache. -/
theorem claim_C6_witness :
    (extract rejectWorld noVerifyHelper 0 0
        (some { token := "zzz", keySetId := "" })).err =
      some (.parseFailure .malformed) ∧
    (extract rejectWorld noVerifyHelper 0 0
        (some { token := "zzz", keySetId := "" })).claims = none ∧
    (extract rejectWorld noVerifyHelper 0 0
        (some { token := "zzz", keySetId := "" })).cacheAfter =
      noVerifyHelper.cache ∧
    (extract rejectWorld noVerifyHelper 0 0
        (some { token := "zzz", keySetId := "" })).insertedTTL = none :=
  (claim_C6 rejectWorld noVerifyHelper 0 0).2
    { token := "zzz", keySetId := "" }
    { verifyWith := none, validate := true } .malformed (by decide) rfl rfl

/-- Witness for C8: a local keyset whose inline data fails base64 decoding
replays that error on every call. -/
theorem claim_C8_witness :
    localKeySetCall (some (newLocalKeySet failingExternals inlineSrc)) 0 =
      .error (.base64DecodeError "x") ∧
    localKeySetCall (some (newLocalKeySet failingExternals inlineSrc)) 0 =
      localKeySetCall (some (newLocalKeySet failingExternals inlineSrc)) 1 :=
  ⟨(claim_C8 failingExternals inlineSrc).2.1 (by decide) rfl 0,
    (claim_C8 failingExternals inlineSrc).1 0 1⟩

/-- Witness for C9: disabling verification yields a helper with no cache
whose extract calls neither probe nor insert. -/
theorem claim_C9_witness :
    (newJWTHelper failingExternals (fun _ => okKeySet 0)
        (some disabledConf)).cache = none ∧
    (extract allOkWorld
        (newJWTHelper failingExternals (fun _ => okKeySet 0) (some disabledConf))
        0 0 (some { token := "a.b.c", keySetId := "" })).probed = false ∧
    (extract allOkWorld
        (newJWTHelper failingExternals (fun _ => okKeySet 0) (some disabledConf))
        0 0 (some { token := "a.b.c", keySetId := "" })).insertedTTL = none :=
  ⟨(claim_C9 failingExternals (fun _ => okKeySet 0) disabledConf (Or.inl rfl)).1,
    ((claim_C9 failingExternals (fun _ => okKeySet 0) disabledConf (Or.inl rfl)).2
      allOkWorld 0 0 (some { token := "a.b.c", keySetId := "" })).1,
    ((claim_C9 failingExternals (fun _ => okKeySet 0) disabledConf (Or.inl rfl)).2
      allOkWorld 0 0 (some { token := "a.b.c", keySetId := "" })).2.2.1⟩

/-- Witness for C10: on a primed cache, a call whose probe hits resolves no
keyset and requests skip-signature, validate-time options. -/
theorem claim_C10_witness :
    (extract mixedKeyWorld primedCacheHelper 0 0
        (some { token := "h.p.sig", keySetId := "nope" })).resolved = false ∧
    (parseOptions primedCacheHelper 0 0 "nope"
        (deriveCacheKey primedCacheHelper.cache.isSome "h.p.sig")).res =
      .ok { verifyWith := none, validate := true } :=
  (claim_C10 mixedKeyWorld primedCacheHelper 0 0
      { token := "h.p.sig", keySetId := "nope" } (by decide)).1 rfl

end Cerbos
